import Mathlib

/-!
Shallow embedding of the Hacker News search tool (`src/main.rs`).

Rust `String` values are modelled as `List Char` (the sequence of Unicode
scalar values); byte-level operations of the renderer are modelled through
`charSize`, the UTF-8 encoded size of a scalar value.

Remote fetches are modelled by an `Oracle` giving, for each item id, the
outcome of the single fetch the scan would issue for it.  Rust's
`client.get(url).send().await?.json().await` has two failure points:
an error from `send()` is propagated by the postfix `?` (constructor
`FetchResult.sendErr` below), while an error from `.json()` is the value the
surrounding `match` sees (`FetchResult.jsonErr`).
-/

deriving instance DecidableEq for Except

namespace HNModel

/-- `Story` struct of main.rs (lines 14-27).  `by` is a Lean keyword, hence
the field name `by_`. -/
structure Story where
  id : Nat
  title : List Char
  url : Option (List Char)
  text : Option (List Char)
  by_ : List Char
  score : Option Int
  descendants : Option Int
  time : Int
  item_type : List Char
  kids : Option (List Nat)
deriving DecidableEq

/-- `Comment` struct of main.rs (lines 30-40). -/
structure Comment where
  id : Nat
  text : Option (List Char)
  by_ : List Char
  time : Int
  parent : Nat
  item_type : List Char
  kids : Option (List Nat)
deriving DecidableEq

/-- `HNError` enum of main.rs (lines 53-61).  The payload of `Network` (the
underlying `reqwest::Error`) is irrelevant to control flow and dropped. -/
inductive HNError where
  | Network
  | NoResults
  | ApiError (msg : String)
deriving DecidableEq

/-- Outcome of one remote item fetch, split by the phase that fails:
`sendErr` = error from `.send()` (escapes through the postfix `?`),
`jsonErr` = error from `.json()` (seen by the `match` in the loop body). -/
inductive FetchResult (α : Type) where
  | sendErr
  | jsonErr
  | ok (a : α)
deriving DecidableEq

/-- What the remote API would answer for each single-item fetch. -/
structure Oracle where
  story : Nat → FetchResult Story
  comment : Nat → FetchResult Comment

/-- `SearchArgs` struct of main.rs (lines 46-51); `max_results` is an `i32`. -/
structure SearchArgs where
  query : List Char
  story_type : Option String
  max_results : Option Int

def HN_API_BASE : String := "https://hacker-news.firebaseio.com/v0"

/-- Category resolution, main.rs lines 100-108. -/
def storiesEndpoint : Option String → Except HNError String
  | some "top" | none => .ok (HN_API_BASE ++ "/topstories.json")
  | some "best" => .ok (HN_API_BASE ++ "/beststories.json")
  | some "new" => .ok (HN_API_BASE ++ "/newstories.json")
  | some "ask" => .ok (HN_API_BASE ++ "/askstories.json")
  | some "show" => .ok (HN_API_BASE ++ "/showstories.json")
  | some "job" => .ok (HN_API_BASE ++ "/jobstories.json")
  | some _ => .error (.ApiError "Invalid story type")

/-- Rust `i32 as usize`: sign-extend and reinterpret modulo 2^64
(main.rs line 96). -/
def i32ToUsize (n : Int) : Nat := (n % (2 ^ 64 : Int)).toNat

/-- Per-character lowercasing, modelling `str::to_lowercase`. -/
def lower (s : List Char) : List Char := s.map Char.toLower

/-- Worker for `split_whitespace`: `cur` holds the current run of
non-whitespace characters, reversed. -/
def splitWsGo : List Char → List Char → List (List Char)
  | [], cur => if cur.isEmpty then [] else [cur.reverse]
  | c :: cs, cur =>
    if c.isWhitespace then
      if cur.isEmpty then splitWsGo cs [] else cur.reverse :: splitWsGo cs []
    else splitWsGo cs (c :: cur)

/-- `query.to_lowercase().split_whitespace()` of main.rs lines 121-125:
the maximal non-empty runs of non-whitespace characters of the lowercased
query, in order. -/
def searchTermsOf (query : List Char) : List (List Char) :=
  splitWsGo (lower query) []

/-- The haystack of main.rs lines 153-158: lowercased title, body text (or
empty) and author, joined by single spaces. -/
def storyText (s : Story) : List Char :=
  lower s.title ++ [' '] ++ lower (s.text.getD []) ++ [' '] ++ lower s.by_

/-- `str::contains`: `pat` occurs as a contiguous substring of `hay`. -/
def containsSub (hay pat : List Char) : Bool := decide (pat <:+: hay)

/-- main.rs line 160: `search_terms.iter().any(|term| story_text.contains(term))`. -/
def storyMatches (terms : List (List Char)) (s : Story) : Bool :=
  terms.any (fun t => containsSub (storyText s) t)

/-- Projection of a fetch outcome to its decoded value, if any. -/
def fetchOk {α : Type} : FetchResult α → Option α
  | .ok a => some a
  | _ => none

def MAX_STORIES_TO_SEARCH : Nat := 100

/-- Comment loop of main.rs lines 166-177, applied to `kids.take 3`.
First component: the accumulated comments, or the propagated send-phase
error; second component: how many comment fetches were issued. -/
def fetchCommentsLoop (o : Oracle) : List Nat → (Except HNError (List Comment)) × Nat
  | [] => (.ok [], 0)
  | cid :: rest =>
    match o.comment cid with
    | .sendErr => (.error .Network, 1)
    | .jsonErr =>
      let r := fetchCommentsLoop o rest
      (r.1, r.2 + 1)
    | .ok c =>
      let r := fetchCommentsLoop o rest
      (r.1.map (fun cs => c :: cs), r.2 + 1)

/-- Result of the scan loop: outcome, number of candidate story ids examined
(story fetches issued), and total item fetches issued (stories + comments). -/
structure ScanOut where
  res : Except HNError (List (Story × List Comment))
  examined : Nat
  fetches : Nat

/-- The scan loop of main.rs lines 132-186.  Arguments mirror the loop
state: remaining ids, `stories_searched`, `stories_processed`, `results`. -/
def scanLoop (o : Oracle) (terms : List (List Char)) (maxResults : Nat) :
    List Nat → Nat → Nat → List (Story × List Comment) → ScanOut
  | [], _, _, acc => ⟨.ok acc, 0, 0⟩
  | storyId :: rest, searched, processed, acc =>
    if searched ≥ MAX_STORIES_TO_SEARCH then ⟨.ok acc, 0, 0⟩
    else
      match o.story storyId with
      | .sendErr => ⟨.error .Network, 1, 1⟩
      | .jsonErr =>
        let r := scanLoop o terms maxResults rest (searched + 1) processed acc
        ⟨r.res, r.examined + 1, r.fetches + 1⟩
      | .ok story =>
        if storyMatches terms story then
          let cl := fetchCommentsLoop o ((story.kids.getD []).take 3)
          match cl.1 with
          | .error e => ⟨.error e, 1, 1 + cl.2⟩
          | .ok comments =>
            let acc2 := acc ++ [(story, comments)]
            let processed2 := processed + 1
            if processed2 ≥ maxResults then ⟨.ok acc2, 1, 1 + cl.2⟩
            else
              let r := scanLoop o terms maxResults rest (searched + 1) processed2 acc2
              ⟨r.res, r.examined + 1, r.fetches + 1 + cl.2⟩
        else
          let r := scanLoop o terms maxResults rest (searched + 1) processed acc
          ⟨r.res, r.examined + 1, r.fetches + 1⟩

/-- `HNSearchTool::call`, main.rs lines 95-193.  `storyIds` is the id list
the (successful) list-endpoint fetch produced. -/
def search (o : Oracle) (storyIds : List Nat) (args : SearchArgs) :
    Except HNError (List (Story × List Comment)) :=
  let maxResults := i32ToUsize (args.max_results.getD 5)
  match storiesEndpoint args.story_type with
  | .error e => .error e
  | .ok _ =>
    if storyIds.isEmpty then .error .NoResults
    else
      match (scanLoop o (searchTermsOf args.query) maxResults storyIds 0 0 []).res with
      | .error e => .error e
      | .ok results => if results.isEmpty then .error .NoResults else .ok results

/-- Number of candidate story ids examined by a `search` call. -/
def searchExamined (o : Oracle) (storyIds : List Nat) (args : SearchArgs) : Nat :=
  match storiesEndpoint args.story_type with
  | .error _ => 0
  | .ok _ =>
    if storyIds.isEmpty then 0
    else (scanLoop o (searchTermsOf args.query)
      (i32ToUsize (args.max_results.getD 5)) storyIds 0 0 []).examined

/-- Number of per-item fetches (stories and comments) a `search` call issues. -/
def searchFetches (o : Oracle) (storyIds : List Nat) (args : SearchArgs) : Nat :=
  match storiesEndpoint args.story_type with
  | .error _ => 0
  | .ok _ =>
    if storyIds.isEmpty then 0
    else (scanLoop o (searchTermsOf args.query)
      (i32ToUsize (args.max_results.getD 5)) storyIds 0 0 []).fetches

/-- UTF-8 encoded size in bytes of one Unicode scalar value. -/
def charSize (c : Char) : Nat :=
  if c.toNat < 0x80 then 1
  else if c.toNat < 0x800 then 2
  else if c.toNat < 0x10000 then 3
  else 4

/-- `str::len` of Rust: length of the UTF-8 encoding in bytes. -/
def utf8Len (s : List Char) : Nat := (s.map charSize).sum

/-- Rust byte slicing `&s[..i]`: the prefix of characters whose encodings
total exactly `i` bytes; `none` models the panic raised when `i` is not a
character boundary (or is out of range). -/
def takeBytes : List Char → Nat → Option (List Char)
  | _, 0 => some []
  | [], _ + 1 => none
  | c :: cs, i + 1 =>
    if charSize c ≤ i + 1 then (takeBytes cs (i + 1 - charSize c)).map (fun l => c :: l)
    else none

/-- Title cell of the summary table, main.rs lines 208-212:
`if story.title.len() > 47 { format!("{}...", &story.title[..47]) } else { clone }`.
`none` models the slicing panic. -/
def tableTitle (title : List Char) : Option (List Char) :=
  if utf8Len title > 47 then
    (takeBytes title 47).map (fun l => l ++ ['.', '.', '.'])
  else some title

/-- The truncated titles of the summary-table rows of `format_hn_results`
(main.rs lines 207-222); `none` models a panic while rendering.  All other
formatting in the renderer is `write!` calls that can only fail on an
underlying write fault. -/
def summaryTitles (results : List (Story × List Comment)) : Option (List (List Char)) :=
  results.mapM (fun p => tableTitle p.1.title)

def sampleStory : Story :=
  { id := 2, title := "Rust async patterns".data, url := none, text := none,
    by_ := "alice".data, score := some 100, descendants := some 4, time := 0,
    item_type := "story".data, kids := some [10, 11, 12, 13] }

def sampleComment (n : Nat) : Comment :=
  { id := n, text := some "interesting".data, by_ := "bob".data, time := 0,
    parent := 2, item_type := "comment".data, kids := none }

/-- Oracle: story 2 decodes to `sampleStory`, every other story fetch and the
fetch of comment 10 fail in the `.json()` phase; other comment fetches
succeed. -/
def sampleOracle : Oracle :=
  ⟨fun i => if i = 2 then .ok sampleStory else .jsonErr,
   fun i => if i = 10 then .jsonErr else .ok (sampleComment i)⟩

/-- Oracle: every single-item fetch fails in the `.json()` phase. -/
def allJsonOracle : Oracle := ⟨fun _ => .jsonErr, fun _ => .jsonErr⟩

def rustArgs : SearchArgs := ⟨"rust".data, none, none⟩

/-- C1 counterexample: the fetch of story 1 fails in the `.send()` phase
(a transport failure); although story 2 further down the list would match,
the whole `search` call aborts with `Network` instead of skipping id 1. -/
def sendErrOracle : Oracle :=
  ⟨fun i => if i = 2 then .ok sampleStory else .sendErr,
   fun i => .ok (sampleComment i)⟩

/-- C2 counterexample: with `max_results = Some(0)` the cap check runs only
after a match is pushed, so one result is returned although the cap is 0. -/
def zeroArgs : SearchArgs := ⟨"rust".data, none, some 0⟩

/-- Story whose title is 46 `a` characters followed by `é`: 47 characters,
48 UTF-8 bytes, and byte index 47 falls inside the 2-byte encoding of `é`. -/
def panicStory : Story :=
  { id := 1, title := List.replicate 46 'a' ++ ['é'], url := none, text := none,
    by_ := "carol".data, score := none, descendants := none, time := 0,
    item_type := "story".data, kids := none }

/-- C8 counterexample: a title of 47 characters (45 `a` plus two `é`) is 49
UTF-8 bytes long, so the renderer truncates it although the claim says a
title of at most 47 characters is shown untruncated. -/
def wideTitle : List Char := List.replicate 45 'a' ++ ['é', 'é']

def wsArgs : SearchArgs := ⟨[' ', ' '], none, none⟩

theorem fetchCommentsLoop_ok (o : Oracle) (l : List Nat) (cs : List Comment)
    (h : (fetchCommentsLoop o l).1 = .ok cs) :
    cs = l.filterMap (fun cid => fetchOk (o.comment cid)) := by
  induction l generalizing cs with
  | nil => simp [fetchCommentsLoop] at h; simp [h]
  | cons cid rest ih =>
    simp only [fetchCommentsLoop] at h
    cases hc : o.comment cid
    · rw [hc] at h; simp at h
    · rw [hc] at h
      simp at h
      rw [List.filterMap_cons]
      simp only [fetchOk, hc]
      exact ih cs h
    · rw [hc] at h
      simp at h
      match hr : (fetchCommentsLoop o rest).1 with
      | .error e => rw [hr] at h; simp [Except.map] at h
      | .ok cs0 =>
        rw [hr] at h
        simp [Except.map] at h
        rw [List.filterMap_cons]
        simp only [fetchOk, hc]
        have h2 := ih cs0 hr
        simp only [fetchOk] at h2
        rw [← h, ← h2]

theorem fetchCommentsLoop_no_sendErr (o : Oracle) (l : List Nat)
    (h : ∀ c ∈ l, o.comment c ≠ .sendErr) :
    (fetchCommentsLoop o l).1 = .ok (l.filterMap (fun cid => fetchOk (o.comment cid))) := by
  induction l with
  | nil => simp [fetchCommentsLoop]
  | cons cid rest ih =>
    have hc := h cid (by simp)
    have hrest : ∀ c ∈ rest, o.comment c ≠ .sendErr := fun c hm => h c (by simp [hm])
    simp only [fetchCommentsLoop]
    cases hcc : o.comment cid
    · exact absurd hcc hc
    · simpa [List.filterMap_cons, fetchOk, hcc] using ih hrest
    · rw [ih hrest]
      simp [Except.map, List.filterMap_cons, fetchOk, hcc]

theorem scanLoop_nil (o : Oracle) (terms : List (List Char)) (cap s p : Nat)
    (acc : List (Story × List Comment)) :
    scanLoop o terms cap [] s p acc = ⟨.ok acc, 0, 0⟩ := rfl

theorem scanLoop_stop (o : Oracle) (terms : List (List Char)) (cap : Nat)
    (i : Nat) (rest : List Nat) (s p : Nat) (acc : List (Story × List Comment))
    (hs : s ≥ MAX_STORIES_TO_SEARCH) :
    scanLoop o terms cap (i :: rest) s p acc = ⟨.ok acc, 0, 0⟩ := by
  simp [scanLoop, hs]

theorem scanLoop_sendErr (o : Oracle) (terms : List (List Char)) (cap : Nat)
    (i : Nat) (rest : List Nat) (s p : Nat) (acc : List (Story × List Comment))
    (hs : ¬ s ≥ MAX_STORIES_TO_SEARCH) (h : o.story i = .sendErr) :
    scanLoop o terms cap (i :: rest) s p acc = ⟨.error .Network, 1, 1⟩ := by
  simp [scanLoop, hs, h]

theorem scanLoop_jsonErr (o : Oracle) (terms : List (List Char)) (cap : Nat)
    (i : Nat) (rest : List Nat) (s p : Nat) (acc : List (Story × List Comment))
    (hs : ¬ s ≥ MAX_STORIES_TO_SEARCH) (h : o.story i = .jsonErr) :
    scanLoop o terms cap (i :: rest) s p acc =
      ⟨(scanLoop o terms cap rest (s + 1) p acc).res,
       (scanLoop o terms cap rest (s + 1) p acc).examined + 1,
       (scanLoop o terms cap rest (s + 1) p acc).fetches + 1⟩ := by
  simp [scanLoop, hs, h]

theorem scanLoop_nomatch (o : Oracle) (terms : List (List Char)) (cap : Nat)
    (i : Nat) (rest : List Nat) (s p : Nat) (acc : List (Story × List Comment))
    (st : Story)
    (hs : ¬ s ≥ MAX_STORIES_TO_SEARCH) (h : o.story i = .ok st)
    (hm : storyMatches terms st = false) :
    scanLoop o terms cap (i :: rest) s p acc =
      ⟨(scanLoop o terms cap rest (s + 1) p acc).res,
       (scanLoop o terms cap rest (s + 1) p acc).examined + 1,
       (scanLoop o terms cap rest (s + 1) p acc).fetches + 1⟩ := by
  simp [scanLoop, hs, h, hm]

theorem scanLoop_match_err (o : Oracle) (terms : List (List Char)) (cap : Nat)
    (i : Nat) (rest : List Nat) (s p : Nat) (acc : List (Story × List Comment))
    (st : Story) (e : HNError)
    (hs : ¬ s ≥ MAX_STORIES_TO_SEARCH) (h : o.story i = .ok st)
    (hm : storyMatches terms st = true)
    (hcl : (fetchCommentsLoop o ((st.kids.getD []).take 3)).1 = .error e) :
    scanLoop o terms cap (i :: rest) s p acc =
      ⟨.error e, 1, 1 + (fetchCommentsLoop o ((st.kids.getD []).take 3)).2⟩ := by
  simp [scanLoop, hs, h, hm, hcl]

theorem scanLoop_match_break (o : Oracle) (terms : List (List Char)) (cap : Nat)
    (i : Nat) (rest : List Nat) (s p : Nat) (acc : List (Story × List Comment))
    (st : Story) (cs : List Comment)
    (hs : ¬ s ≥ MAX_STORIES_TO_SEARCH) (h : o.story i = .ok st)
    (hm : storyMatches terms st = true)
    (hcl : (fetchCommentsLoop o ((st.kids.getD []).take 3)).1 = .ok cs)
    (hcap : p + 1 ≥ cap) :
    scanLoop o terms cap (i :: rest) s p acc =
      ⟨.ok (acc ++ [(st, cs)]), 1, 1 + (fetchCommentsLoop o ((st.kids.getD []).take 3)).2⟩ := by
  simp [scanLoop, hs, h, hm, hcl, hcap]

theorem scanLoop_match_go (o : Oracle) (terms : List (List Char)) (cap : Nat)
    (i : Nat) (rest : List Nat) (s p : Nat) (acc : List (Story × List Comment))
    (st : Story) (cs : List Comment)
    (hs : ¬ s ≥ MAX_STORIES_TO_SEARCH) (h : o.story i = .ok st)
    (hm : storyMatches terms st = true)
    (hcl : (fetchCommentsLoop o ((st.kids.getD []).take 3)).1 = .ok cs)
    (hcap : ¬ p + 1 ≥ cap) :
    scanLoop o terms cap (i :: rest) s p acc =
      ⟨(scanLoop o terms cap rest (s + 1) (p + 1) (acc ++ [(st, cs)])).res,
       (scanLoop o terms cap rest (s + 1) (p + 1) (acc ++ [(st, cs)])).examined + 1,
       (scanLoop o terms cap rest (s + 1) (p + 1) (acc ++ [(st, cs)])).fetches + 1
         + (fetchCommentsLoop o ((st.kids.getD []).take 3)).2⟩ := by
  simp [scanLoop, hs, h, hm, hcl, hcap]

theorem scanLoop_mem (o : Oracle) (terms : List (List Char)) (cap : Nat) :
    ∀ (ids : List Nat) (s p : Nat) (acc out : List (Story × List Comment)),
      (scanLoop o terms cap ids s p acc).res = .ok out →
      ∀ x ∈ out, x ∈ acc ∨ (storyMatches terms x.1 = true ∧
        (fetchCommentsLoop o ((x.1.kids.getD []).take 3)).1 = .ok x.2) := by
  intro ids
  induction ids with
  | nil =>
    intro s p acc out h x hx
    rw [scanLoop_nil] at h
    simp at h
    subst h
    exact Or.inl hx
  | cons i rest ih =>
    intro s p acc out h x hx
    by_cases hs : s ≥ MAX_STORIES_TO_SEARCH
    · rw [scanLoop_stop o terms cap i rest s p acc hs] at h
      simp at h
      subst h
      exact Or.inl hx
    · cases hst : o.story i with
      | sendErr =>
        rw [scanLoop_sendErr o terms cap i rest s p acc hs hst] at h
        simp at h
      | jsonErr =>
        rw [scanLoop_jsonErr o terms cap i rest s p acc hs hst] at h
        exact ih (s + 1) p acc out h x hx
      | ok st =>
        cases hm : storyMatches terms st with
        | false =>
          rw [scanLoop_nomatch o terms cap i rest s p acc st hs hst hm] at h
          exact ih (s + 1) p acc out h x hx
        | true =>
          cases hcl : (fetchCommentsLoop o ((st.kids.getD []).take 3)).1 with
          | error e =>
            rw [scanLoop_match_err o terms cap i rest s p acc st e hs hst hm hcl] at h
            simp at h
          | ok cs =>
            by_cases hcap : p + 1 ≥ cap
            · rw [scanLoop_match_break o terms cap i rest s p acc st cs hs hst hm hcl hcap] at h
              simp at h
              subst h
              rcases List.mem_append.mp hx with hxa | hxn
              · exact Or.inl hxa
              · simp at hxn
                subst hxn
                exact Or.inr ⟨hm, hcl⟩
            · rw [scanLoop_match_go o terms cap i rest s p acc st cs hs hst hm hcl hcap] at h
              rcases ih (s + 1) (p + 1) (acc ++ [(st, cs)]) out h x hx with hxa | hgood
              · rcases List.mem_append.mp hxa with h1 | h2
                · exact Or.inl h1
                · simp at h2
                  subst h2
                  exact Or.inr ⟨hm, hcl⟩
              · exact Or.inr hgood

theorem fetchCommentsLoop_err (o : Oracle) (l : List Nat) (e : HNError)
    (h : (fetchCommentsLoop o l).1 = .error e) : e = .Network := by
  induction l with
  | nil => simp [fetchCommentsLoop] at h
  | cons cid rest ih =>
    simp only [fetchCommentsLoop] at h
    cases hc : o.comment cid
    · rw [hc] at h
      simp at h
      exact h.symm
    · rw [hc] at h
      exact ih h
    · rw [hc] at h
      simp at h
      cases hr : (fetchCommentsLoop o rest).1 with
      | error e2 =>
        rw [hr] at h
        simp [Except.map] at h
        subst h
        exact ih hr
      | ok cs => rw [hr] at h; simp [Except.map] at h

theorem scanLoop_err (o : Oracle) (terms : List (List Char)) (cap : Nat) :
    ∀ (ids : List Nat) (s p : Nat) (acc : List (Story × List Comment)) (e : HNError),
      (scanLoop o terms cap ids s p acc).res = .error e → e = .Network := by
  intro ids
  induction ids with
  | nil => intro s p acc e h; rw [scanLoop_nil] at h; simp at h
  | cons i rest ih =>
    intro s p acc e h
    by_cases hs : s ≥ MAX_STORIES_TO_SEARCH
    · rw [scanLoop_stop o terms cap i rest s p acc hs] at h; simp at h
    · cases hst : o.story i with
      | sendErr =>
        rw [scanLoop_sendErr o terms cap i rest s p acc hs hst] at h
        simp at h
        exact h.symm
      | jsonErr =>
        rw [scanLoop_jsonErr o terms cap i rest s p acc hs hst] at h
        exact ih (s + 1) p acc e h
      | ok st =>
        cases hm : storyMatches terms st with
        | false =>
          rw [scanLoop_nomatch o terms cap i rest s p acc st hs hst hm] at h
          exact ih (s + 1) p acc e h
        | true =>
          cases hcl : (fetchCommentsLoop o ((st.kids.getD []).take 3)).1 with
          | error e2 =>
            rw [scanLoop_match_err o terms cap i rest s p acc st e2 hs hst hm hcl] at h
            simp at h
            subst h
            exact fetchCommentsLoop_err o _ _ hcl
          | ok cs =>
            by_cases hcap : p + 1 ≥ cap
            · rw [scanLoop_match_break o terms cap i rest s p acc st cs hs hst hm hcl hcap] at h
              simp at h
            · rw [scanLoop_match_go o terms cap i rest s p acc st cs hs hst hm hcl hcap] at h
              exact ih (s + 1) (p + 1) (acc ++ [(st, cs)]) e h

theorem scanLoop_examined_le (o : Oracle) (terms : List (List Char)) (cap : Nat) :
    ∀ (ids : List Nat) (s p : Nat) (acc : List (Story × List Comment)),
      (scanLoop o terms cap ids s p acc).examined ≤ MAX_STORIES_TO_SEARCH - s := by
  intro ids
  induction ids with
  | nil => intro s p acc; rw [scanLoop_nil]; simp
  | cons i rest ih =>
    intro s p acc
    by_cases hs : s ≥ MAX_STORIES_TO_SEARCH
    · rw [scanLoop_stop o terms cap i rest s p acc hs]; simp
    · have hlt : s < MAX_STORIES_TO_SEARCH := Nat.lt_of_not_le hs
      cases hst : o.story i with
      | sendErr =>
        rw [scanLoop_sendErr o terms cap i rest s p acc hs hst]
        simp
        omega
      | jsonErr =>
        rw [scanLoop_jsonErr o terms cap i rest s p acc hs hst]
        have := ih (s + 1) p acc
        simp
        omega
      | ok st =>
        cases hm : storyMatches terms st with
        | false =>
          rw [scanLoop_nomatch o terms cap i rest s p acc st hs hst hm]
          have := ih (s + 1) p acc
          simp
          omega
        | true =>
          cases hcl : (fetchCommentsLoop o ((st.kids.getD []).take 3)).1 with
          | error e =>
            rw [scanLoop_match_err o terms cap i rest s p acc st e hs hst hm hcl]
            simp
            omega
          | ok cs =>
            by_cases hcap : p + 1 ≥ cap
            · rw [scanLoop_match_break o terms cap i rest s p acc st cs hs hst hm hcl hcap]
              simp
              omega
            · rw [scanLoop_match_go o terms cap i rest s p acc st cs hs hst hm hcl hcap]
              have := ih (s + 1) (p + 1) (acc ++ [(st, cs)])
              simp
              omega

theorem scanLoop_len_le_examined (o : Oracle) (terms : List (List Char)) (cap : Nat) :
    ∀ (ids : List Nat) (s p : Nat) (acc out : List (Story × List Comment)),
      (scanLoop o terms cap ids s p acc).res = .ok out →
      out.length ≤ acc.length + (scanLoop o terms cap ids s p acc).examined := by
  intro ids
  induction ids with
  | nil =>
    intro s p acc out h
    rw [scanLoop_nil] at h ⊢
    simp at h ⊢
    subst h
    simp
  | cons i rest ih =>
    intro s p acc out h
    by_cases hs : s ≥ MAX_STORIES_TO_SEARCH
    · rw [scanLoop_stop o terms cap i rest s p acc hs] at h ⊢
      simp at h ⊢
      subst h
      simp
    · cases hst : o.story i with
      | sendErr =>
        rw [scanLoop_sendErr o terms cap i rest s p acc hs hst] at h
        simp at h
      | jsonErr =>
        rw [scanLoop_jsonErr o terms cap i rest s p acc hs hst] at h ⊢
        have := ih (s + 1) p acc out h
        simp
        omega
      | ok st =>
        cases hm : storyMatches terms st with
        | false =>
          rw [scanLoop_nomatch o terms cap i rest s p acc st hs hst hm] at h ⊢
          have := ih (s + 1) p acc out h
          simp
          omega
        | true =>
          cases hcl : (fetchCommentsLoop o ((st.kids.getD []).take 3)).1 with
          | error e =>
            rw [scanLoop_match_err o terms cap i rest s p acc st e hs hst hm hcl] at h
            simp at h
          | ok cs =>
            by_cases hcap : p + 1 ≥ cap
            · rw [scanLoop_match_break o terms cap i rest s p acc st cs hs hst hm hcl hcap] at h ⊢
              simp at h ⊢
              subst h
              simp
            · rw [scanLoop_match_go o terms cap i rest s p acc st cs hs hst hm hcl hcap] at h ⊢
              have := ih (s + 1) (p + 1) (acc ++ [(st, cs)]) out h
              simp at this ⊢
              omega

theorem scanLoop_len_cap (o : Oracle) (terms : List (List Char)) (cap : Nat) :
    ∀ (ids : List Nat) (s p : Nat) (acc out : List (Story × List Comment)),
      acc.length = p → (scanLoop o terms cap ids s p acc).res = .ok out →
      (p < cap → out.length ≤ cap) ∧ out.length ≤ max cap (p + 1) := by
  intro ids
  induction ids with
  | nil =>
    intro s p acc out hp h
    rw [scanLoop_nil] at h
    simp at h
    subst h
    omega
  | cons i rest ih =>
    intro s p acc out hp h
    by_cases hs : s ≥ MAX_STORIES_TO_SEARCH
    · rw [scanLoop_stop o terms cap i rest s p acc hs] at h
      simp at h
      subst h
      omega
    · cases hst : o.story i with
      | sendErr =>
        rw [scanLoop_sendErr o terms cap i rest s p acc hs hst] at h
        simp at h
      | jsonErr =>
        rw [scanLoop_jsonErr o terms cap i rest s p acc hs hst] at h
        exact ih (s + 1) p acc out hp h
      | ok st =>
        cases hm : storyMatches terms st with
        | false =>
          rw [scanLoop_nomatch o terms cap i rest s p acc st hs hst hm] at h
          exact ih (s + 1) p acc out hp h
        | true =>
          cases hcl : (fetchCommentsLoop o ((st.kids.getD []).take 3)).1 with
          | error e =>
            rw [scanLoop_match_err o terms cap i rest s p acc st e hs hst hm hcl] at h
            simp at h
          | ok cs =>
            by_cases hcap : p + 1 ≥ cap
            · rw [scanLoop_match_break o terms cap i rest s p acc st cs hs hst hm hcl hcap] at h
              simp at h
              subst h
              simp [hp]
              omega
            · rw [scanLoop_match_go o terms cap i rest s p acc st cs hs hst hm hcl hcap] at h
              have hlen : (acc ++ [(st, cs)]).length = p + 1 := by simp [hp]
              have := ih (s + 1) (p + 1) (acc ++ [(st, cs)]) out hlen h
              omega

theorem scanLoop_empty_terms (o : Oracle) (cap : Nat)
    (hs : ∀ i, o.story i ≠ .sendErr) :
    ∀ (ids : List Nat) (s p : Nat) (acc : List (Story × List Comment)),
      (scanLoop o [] cap ids s p acc).res = .ok acc := by
  intro ids
  induction ids with
  | nil => intro s p acc; rw [scanLoop_nil]
  | cons i rest ih =>
    intro s p acc
    by_cases hsm : s ≥ MAX_STORIES_TO_SEARCH
    · rw [scanLoop_stop o [] cap i rest s p acc hsm]
    · cases hst : o.story i with
      | sendErr => exact absurd hst (hs i)
      | jsonErr =>
        rw [scanLoop_jsonErr o [] cap i rest s p acc hsm hst]
        exact ih (s + 1) p acc
      | ok st =>
        have hm : storyMatches [] st = false := by simp [storyMatches]
        rw [scanLoop_nomatch o [] cap i rest s p acc st hsm hst hm]
        exact ih (s + 1) p acc

theorem scanLoop_total (o : Oracle) (terms : List (List Char)) (cap : Nat)
    (hs : ∀ i, o.story i ≠ .sendErr) (hc : ∀ i, o.comment i ≠ .sendErr) :
    ∀ (ids : List Nat) (s p : Nat) (acc : List (Story × List Comment)),
      ∃ out, (scanLoop o terms cap ids s p acc).res = .ok out := by
  intro ids
  induction ids with
  | nil => intro s p acc; exact ⟨acc, by rw [scanLoop_nil]⟩
  | cons i rest ih =>
    intro s p acc
    by_cases hsm : s ≥ MAX_STORIES_TO_SEARCH
    · exact ⟨acc, by rw [scanLoop_stop o terms cap i rest s p acc hsm]⟩
    · cases hst : o.story i with
      | sendErr => exact absurd hst (hs i)
      | jsonErr =>
        obtain ⟨out, hout⟩ := ih (s + 1) p acc
        exact ⟨out, by rw [scanLoop_jsonErr o terms cap i rest s p acc hsm hst]; exact hout⟩
      | ok st =>
        cases hm : storyMatches terms st with
        | false =>
          obtain ⟨out, hout⟩ := ih (s + 1) p acc
          exact ⟨out, by rw [scanLoop_nomatch o terms cap i rest s p acc st hsm hst hm]; exact hout⟩
        | true =>
          have hcl := fetchCommentsLoop_no_sendErr o ((st.kids.getD []).take 3)
            (fun c _ => hc c)
          set cs0 := ((st.kids.getD []).take 3).filterMap
            (fun cid => fetchOk (o.comment cid)) with hcs0
          by_cases hcap : p + 1 ≥ cap
          · refine ⟨acc ++ [(st, cs0)], ?_⟩
            rw [scanLoop_match_break o terms cap i rest s p acc st cs0 hsm hst hm hcl hcap]
          · obtain ⟨out, hout⟩ := ih (s + 1) (p + 1) (acc ++ [(st, cs0)])
            exact ⟨out, by
              rw [scanLoop_match_go o terms cap i rest s p acc st cs0 hsm hst hm hcl hcap]
              exact hout⟩

theorem scanLoop_examined_pos (o : Oracle) (terms : List (List Char)) (cap : Nat)
    (i : Nat) (rest : List Nat) (s p : Nat) (acc : List (Story × List Comment))
    (hs : s < MAX_STORIES_TO_SEARCH) :
    1 ≤ (scanLoop o terms cap (i :: rest) s p acc).examined := by
  have hs2 : ¬ s ≥ MAX_STORIES_TO_SEARCH := Nat.not_le.mpr hs
  cases hst : o.story i with
  | sendErr => rw [scanLoop_sendErr o terms cap i rest s p acc hs2 hst]
  | jsonErr =>
    rw [scanLoop_jsonErr o terms cap i rest s p acc hs2 hst]
    simp
  | ok st =>
    cases hm : storyMatches terms st with
    | false =>
      rw [scanLoop_nomatch o terms cap i rest s p acc st hs2 hst hm]
      simp
    | true =>
      cases hcl : (fetchCommentsLoop o ((st.kids.getD []).take 3)).1 with
      | error e =>
        rw [scanLoop_match_err o terms cap i rest s p acc st e hs2 hst hm hcl]
      | ok cs =>
        by_cases hcap : p + 1 ≥ cap
        · rw [scanLoop_match_break o terms cap i rest s p acc st cs hs2 hst hm hcl hcap]
        · rw [scanLoop_match_go o terms cap i rest s p acc st cs hs2 hst hm hcl hcap]
          simp

theorem splitWsGo_all_ws (s : List Char) (h : ∀ c ∈ s, c.isWhitespace) :
    splitWsGo s [] = [] := by
  induction s with
  | nil => simp [splitWsGo]
  | cons c cs ih =>
    have hc := h c (by simp)
    simp [splitWsGo, hc]
    exact ih (fun c hm => h c (by simp [hm]))

theorem lower_all_ws (q : List Char) (h : ∀ c ∈ q, c.isWhitespace) :
    ∀ c ∈ lower q, c.isWhitespace := by
  intro c hc
  simp [lower] at hc
  obtain ⟨c0, hc0, rfl⟩ := hc
  have h0 := h c0 hc0
  simp [Char.isWhitespace] at h0 ⊢
  rcases h0 with ((rfl | rfl) | rfl) | rfl <;> decide

theorem searchTermsOf_ws (q : List Char) (h : ∀ c ∈ q, c.isWhitespace) :
    searchTermsOf q = [] :=
  splitWsGo_all_ws (lower q) (lower_all_ws q h)

theorem utf8Len_ascii (s : List Char) (h : ∀ c ∈ s, c.toNat < 128) :
    utf8Len s = s.length := by
  induction s with
  | nil => simp [utf8Len]
  | cons c cs ih =>
    have hc : charSize c = 1 := by simp [charSize, h c (by simp)]
    have ihr := ih (fun c hm => h c (by simp [hm]))
    simp only [utf8Len, List.map_cons, List.sum_cons, List.length_cons] at ihr ⊢
    omega

theorem takeBytes_ascii (s : List Char) (h : ∀ c ∈ s, c.toNat < 128) :
    ∀ i, i ≤ s.length → takeBytes s i = some (s.take i) := by
  induction s with
  | nil =>
    intro i hi
    simp at hi
    subst hi
    rfl
  | cons c cs ih =>
    intro i hi
    match i with
    | 0 => rfl
    | i + 1 =>
      have hc : charSize c = 1 := by simp [charSize, h c (by simp)]
      simp only [takeBytes, hc]
      rw [if_pos (by omega)]
      simp only [Nat.add_sub_cancel]
      rw [ih (fun c hm => h c (by simp [hm])) i (by simp at hi; omega)]
      simp

theorem tableTitle_ascii (title : List Char) (h : ∀ c ∈ title, c.toNat < 128) :
    (title.length ≤ 47 → tableTitle title = some title) ∧
    (48 ≤ title.length → tableTitle title = some (title.take 47 ++ ['.', '.', '.'])) := by
  have hlen := utf8Len_ascii title h
  constructor
  · intro h47
    simp [tableTitle, hlen]
    omega
  · intro h48
    rw [tableTitle, if_pos (by omega)]
    rw [takeBytes_ascii title h 47 (by omega)]
    rfl

theorem storiesEndpoint_invalid (t : String)
    (h : t ∉ (["top", "best", "new", "ask", "show", "job"] : List String)) :
    storiesEndpoint (some t) = .error (.ApiError "Invalid story type") := by
  simp at h
  obtain ⟨h1, h2, h3, h4, h5, h6⟩ := h
  rw [storiesEndpoint.eq_def]
  split <;> simp_all

theorem search_empty (o : Oracle) (args : SearchArgs) (e : String)
    (hcat : storiesEndpoint args.story_type = .ok e) :
    search o [] args = .error .NoResults ∧ searchFetches o [] args = 0 ∧
      searchExamined o [] args = 0 := by
  refine ⟨?_, ?_, ?_⟩ <;> simp [search, searchFetches, searchExamined, hcat]

theorem search_cons (o : Oracle) (i : Nat) (rest : List Nat) (args : SearchArgs) (e : String)
    (hcat : storiesEndpoint args.story_type = .ok e) :
    search o (i :: rest) args =
      (match (scanLoop o (searchTermsOf args.query)
          (i32ToUsize (args.max_results.getD 5)) (i :: rest) 0 0 []).res with
       | .error e2 => .error e2
       | .ok results => if results.isEmpty then .error .NoResults else .ok results) := by
  simp [search, hcat]

/-- C5: `search` fails with `NoResults` exactly when the id list is empty
(then without issuing any item fetches) or the scan completes with an empty
accumulated result; any other completed scan yields the non-empty result. -/
theorem claim5_noresults_cases (o : Oracle) (ids : List Nat) (args : SearchArgs) (e : String)
    (hcat : storiesEndpoint args.story_type = .ok e) :
    (ids = [] → search o ids args = .error .NoResults ∧ searchFetches o ids args = 0) ∧
    (search o ids args = .error .NoResults ↔
      ids = [] ∨ (scanLoop o (searchTermsOf args.query)
        (i32ToUsize (args.max_results.getD 5)) ids 0 0 []).res = .ok []) ∧
    (∀ out, ids ≠ [] →
      (scanLoop o (searchTermsOf args.query)
        (i32ToUsize (args.max_results.getD 5)) ids 0 0 []).res = .ok out →
      out ≠ [] → search o ids args = .ok out) := by
  refine ⟨?_, ?_, ?_⟩
  · intro hids
    subst hids
    have h := search_empty o args e hcat
    exact ⟨h.1, h.2.1⟩
  · cases ids with
    | nil =>
      have h := search_empty o args e hcat
      simp [h.1, scanLoop_nil]
    | cons i rest =>
      rw [search_cons o i rest args e hcat]
      cases hr : (scanLoop o (searchTermsOf args.query)
          (i32ToUsize (args.max_results.getD 5)) (i :: rest) 0 0 []).res with
      | error e2 =>
        simp
        intro he2
        exact absurd (scanLoop_err o _ _ (i :: rest) 0 0 [] e2 hr) (by rw [he2]; simp)
      | ok results =>
        cases results with
        | nil => simp
        | cons r rs => simp
  · intro out hne hscan hout
    cases ids with
    | nil => exact absurd rfl hne
    | cons i rest =>
      rw [search_cons o i rest args e hcat, hscan]
      simp [hout]

/-- C6: category resolution maps absent/"top" to the top-stories endpoint and
"best"/"new"/"ask"/"show"/"job" to their endpoints; any other non-empty token
makes `search` fail with the invalid-category error (`HNError.ApiError
"Invalid story type"` in the code, `InvalidCategory` in the spec's taxonomy),
independently of the oracle, the id list and the rest of the request. -/
theorem claim6_category_resolution :
    (storiesEndpoint none = .ok (HN_API_BASE ++ "/topstories.json") ∧
     storiesEndpoint (some "top") = .ok (HN_API_BASE ++ "/topstories.json") ∧
     storiesEndpoint (some "best") = .ok (HN_API_BASE ++ "/beststories.json") ∧
     storiesEndpoint (some "new") = .ok (HN_API_BASE ++ "/newstories.json") ∧
     storiesEndpoint (some "ask") = .ok (HN_API_BASE ++ "/askstories.json") ∧
     storiesEndpoint (some "show") = .ok (HN_API_BASE ++ "/showstories.json") ∧
     storiesEndpoint (some "job") = .ok (HN_API_BASE ++ "/jobstories.json")) ∧
    (∀ (t : String), t ≠ "" →
      t ∉ (["top", "best", "new", "ask", "show", "job"] : List String) →
      storiesEndpoint (some t) = .error (.ApiError "Invalid story type") ∧
      ∀ (o o2 : Oracle) (ids ids2 : List Nat) (q q2 : List Char) (m m2 : Option Int),
        search o ids ⟨q, some t, m⟩ = .error (.ApiError "Invalid story type") ∧
        search o ids ⟨q, some t, m⟩ = search o2 ids2 ⟨q2, some t, m2⟩) := by
  constructor
  · exact ⟨rfl, rfl, rfl, rfl, rfl, rfl, rfl⟩
  · intro t _ hmem
    have hend := storiesEndpoint_invalid t hmem
    refine ⟨hend, ?_⟩
    intro o o2 ids ids2 q q2 m m2
    constructor <;> simp [search, hend]

/-- Witness for C6 at the concrete token "news". -/
theorem claim6_witness :
    storiesEndpoint (some "news") = .error (.ApiError "Invalid story type") :=
  (claim6_category_resolution.2 "news" (by decide) (by decide)).1

theorem storiesEndpoint_no_network (t : Option String) (e : HNError)
    (h : storiesEndpoint t = .error e) : e = .ApiError "Invalid story type" := by
  rw [storiesEndpoint.eq_def] at h
  split at h <;> simp_all

theorem search_ok_scan (o : Oracle) (ids : List Nat) (args : SearchArgs)
    (r : List (Story × List Comment)) (h : search o ids args = .ok r) :
    (scanLoop o (searchTermsOf args.query)
      (i32ToUsize (args.max_results.getD 5)) ids 0 0 []).res = .ok r := by
  cases hcat : storiesEndpoint args.story_type with
  | error e => simp [search, hcat] at h
  | ok e =>
    cases ids with
    | nil => rw [(search_empty o args e hcat).1] at h; simp at h
    | cons i rest =>
      rw [search_cons o i rest args e hcat] at h
      cases hr : (scanLoop o (searchTermsOf args.query)
          (i32ToUsize (args.max_results.getD 5)) (i :: rest) 0 0 []).res with
      | error e2 => rw [hr] at h; simp at h
      | ok results =>
        rw [hr] at h
        by_cases hempty : results.isEmpty <;> simp [hempty] at h
        rw [h]

theorem search_no_network (o : Oracle) (ids : List Nat) (args : SearchArgs)
    (hstory : ∀ j, o.story j ≠ .sendErr) (hcomment : ∀ j, o.comment j ≠ .sendErr) :
    search o ids args ≠ .error .Network := by
  intro h
  cases hcat : storiesEndpoint args.story_type with
  | error e =>
    have he := storiesEndpoint_no_network args.story_type e hcat
    rw [he] at hcat
    simp [search, hcat] at h
  | ok e =>
    cases ids with
    | nil =>
      rw [(search_empty o args e hcat).1] at h
      simp at h
    | cons i rest =>
      obtain ⟨out, hout⟩ := scanLoop_total o (searchTermsOf args.query)
        (i32ToUsize (args.max_results.getD 5)) hstory hcomment (i :: rest) 0 0 []
      rw [search_cons o i rest args e hcat, hout] at h
      by_cases hempty : out.isEmpty <;> simp [hempty] at h

/-- Witness for C5: on an empty id list `search` fails with `NoResults` and
issues no item fetch. -/
theorem claim5_witness :
    search allJsonOracle [] rustArgs = .error .NoResults ∧
      searchFetches allJsonOracle [] rustArgs = 0 :=
  (claim5_noresults_cases allJsonOracle [] rustArgs
    (HN_API_BASE ++ "/topstories.json") rfl).1 rfl

theorem claim1_counterexample :
    sendErrOracle.story 1 = .sendErr ∧
    storyMatches (searchTermsOf rustArgs.query) sampleStory = true ∧
    search sendErrOracle [1, 2] rustArgs = .error .Network := by decide

/-- C1 (amended): only `.json()`-phase (decode) failures of a per-item fetch
are recorded as a warning and skipped, with the scan continuing on the next
id; when no fetch fails in the `.send()` phase, no per-item failure can
abort the search with a `Network` error. -/
theorem claim1_amended (o : Oracle) (terms : List (List Char)) (cap : Nat)
    (i : Nat) (rest ids : List Nat) (s p : Nat) (acc : List (Story × List Comment))
    (args : SearchArgs)
    (hjson : o.story i = .jsonErr) (hs : s < MAX_STORIES_TO_SEARCH)
    (hstory : ∀ j, o.story j ≠ .sendErr) (hcomment : ∀ j, o.comment j ≠ .sendErr) :
    (scanLoop o terms cap (i :: rest) s p acc).res =
      (scanLoop o terms cap rest (s + 1) p acc).res ∧
    search o ids args ≠ .error .Network := by
  constructor
  · rw [scanLoop_jsonErr o terms cap i rest s p acc (Nat.not_le.mpr hs) hjson]
  · exact search_no_network o ids args hstory hcomment

theorem claim1_witness :
    (scanLoop allJsonOracle [] 5 [1] 0 0 []).res =
      (scanLoop allJsonOracle [] 5 [] 1 0 []).res ∧
    search allJsonOracle [1] rustArgs ≠ .error .Network :=
  claim1_amended allJsonOracle [] 5 1 [] [1] 0 0 [] rustArgs rfl (by decide)
    (fun j => by simp [allJsonOracle]) (fun j => by simp [allJsonOracle])

theorem claim2_counterexample :
    search sampleOracle [2] zeroArgs =
      .ok [(sampleStory, [sampleComment 11, sampleComment 12])] ∧
    i32ToUsize (zeroArgs.max_results.getD 5) = 0 ∧
    ¬ ([(sampleStory, [sampleComment 11, sampleComment 12])].length ≤
        i32ToUsize (zeroArgs.max_results.getD 5)) := by decide

/-- C2 (amended): the returned result has at most `max(max_results, 1)`
pairs (`max_results` converted as `i32 as usize` and defaulting to 5), and
the scan examines at most 100 candidate ids, whatever the id list length. -/
theorem claim2_amended (o : Oracle) (ids : List Nat) (args : SearchArgs)
    (r : List (Story × List Comment)) (h : search o ids args = .ok r) :
    r.length ≤ max (i32ToUsize (args.max_results.getD 5)) 1 ∧
    searchExamined o ids args ≤ MAX_STORIES_TO_SEARCH := by
  constructor
  · have hscan := search_ok_scan o ids args r h
    have hcap := scanLoop_len_cap o (searchTermsOf args.query)
      (i32ToUsize (args.max_results.getD 5)) ids 0 0 [] r rfl hscan
    omega
  · unfold searchExamined
    cases hcat : storiesEndpoint args.story_type with
    | error e => simp
    | ok e =>
      by_cases hids : ids.isEmpty <;> simp [hids]
      have := scanLoop_examined_le o (searchTermsOf args.query)
        (i32ToUsize (args.max_results.getD 5)) ids 0 0 []
      omega

theorem claim2_witness :
    [(sampleStory, [sampleComment 11, sampleComment 12])].length ≤
      max (i32ToUsize (rustArgs.max_results.getD 5)) 1 ∧
    searchExamined sampleOracle [1, 2, 3] rustArgs ≤ MAX_STORIES_TO_SEARCH :=
  claim2_amended sampleOracle [1, 2, 3] rustArgs
    [(sampleStory, [sampleComment 11, sampleComment 12])] (by decide)

/-- C3: every story in a successful result has at least one of the
lowercased whitespace-split query terms as a substring of the lowercased
concatenation of its title, body text (empty if absent) and author. -/
theorem claim3_results_match (o : Oracle) (ids : List Nat) (args : SearchArgs)
    (r : List (Story × List Comment)) (h : search o ids args = .ok r) :
    ∀ p ∈ r, ∃ t ∈ searchTermsOf args.query, t <:+: storyText p.1 := by
  intro p hp
  have hscan := search_ok_scan o ids args r h
  rcases scanLoop_mem o (searchTermsOf args.query)
      (i32ToUsize (args.max_results.getD 5)) ids 0 0 [] r hscan p hp with habs | ⟨hm, _⟩
  · simp at habs
  · simp only [storyMatches, List.any_eq_true, containsSub,
      decide_eq_true_eq] at hm
    exact hm

theorem claim3_witness :
    ∃ t ∈ searchTermsOf rustArgs.query, t <:+: storyText sampleStory :=
  claim3_results_match sampleOracle [1, 2, 3] rustArgs
    [(sampleStory, [sampleComment 11, sampleComment 12])] (by decide)
    (sampleStory, [sampleComment 11, sampleComment 12]) (by decide)

/-- C4 counterexample: story 2 has 4 child ids and the fetch of the first
one fails; the code attaches 2 comments (successes among the first 3
attempts), while the claimed count `min(3, successes among all N)` is 3. -/
theorem claim4_counterexample :
    search sampleOracle [2] rustArgs =
      .ok [(sampleStory, [sampleComment 11, sampleComment 12])] ∧
    [sampleComment 11, sampleComment 12].length = 2 ∧
    min 3 (((sampleStory.kids.getD []).filterMap
      (fun cid => fetchOk (sampleOracle.comment cid))).length) = 3 := by decide

/-- C4 (amended): the comments attached to a returned story are exactly the
successful fetches among the first `min(3, N)` child ids, in the original
child-id order; a failing fetch is omitted, never replaced by a later id. -/
theorem claim4_amended (o : Oracle) (ids : List Nat) (args : SearchArgs)
    (r : List (Story × List Comment)) (h : search o ids args = .ok r) :
    ∀ p ∈ r, p.2 = ((p.1.kids.getD []).take 3).filterMap
      (fun cid => fetchOk (o.comment cid)) := by
  intro p hp
  have hscan := search_ok_scan o ids args r h
  rcases scanLoop_mem o (searchTermsOf args.query)
      (i32ToUsize (args.max_results.getD 5)) ids 0 0 [] r hscan p hp with habs | ⟨_, hcl⟩
  · simp at habs
  · exact fetchCommentsLoop_ok o _ _ hcl

theorem claim4_witness :
    [sampleComment 11, sampleComment 12] =
      ((sampleStory.kids.getD []).take 3).filterMap
        (fun cid => fetchOk (sampleOracle.comment cid)) :=
  claim4_amended sampleOracle [1, 2, 3] rustArgs
    [(sampleStory, [sampleComment 11, sampleComment 12])] (by decide)
    (sampleStory, [sampleComment 11, sampleComment 12]) (by decide)

/-- C7 (code bug): the renderer is not total.  `format_hn_results` computes
`story.title.len() > 47` in bytes and slices `&story.title[..47]`; for
`panicStory` the title is 48 bytes long but byte 47 is not a character
boundary, so the slice panics (modelled by `none`). -/
theorem claim7_renderer_panics :
    utf8Len panicStory.title = 48 ∧
    takeBytes panicStory.title 47 = none ∧
    summaryTitles [(panicStory, [])] = none := by decide

theorem claim8_counterexample :
    wideTitle.length = 47 ∧ tableTitle wideTitle ≠ some wideTitle := by decide

/-- C8 (amended): the 47-cutoff is measured in UTF-8 bytes, not characters.
For an all-ASCII title the two agree: at most 47 characters is shown
untruncated, 48 or more is truncated to the first 47 characters plus "...". -/
theorem claim8_amended (title : List Char) (h : ∀ c ∈ title, c.toNat < 128) :
    utf8Len title = title.length ∧
    (title.length ≤ 47 → tableTitle title = some title) ∧
    (48 ≤ title.length → tableTitle title = some (title.take 47 ++ ['.', '.', '.'])) :=
  ⟨utf8Len_ascii title h, tableTitle_ascii title h⟩

theorem claim8_witness :
    tableTitle (List.replicate 48 'a') =
      some ((List.replicate 48 'a').take 47 ++ ['.', '.', '.']) :=
  (claim8_amended (List.replicate 48 'a') (by decide)).2.2 (by decide)

/-- C9: a negative `max_results` is not rejected; `n as usize` wraps modulo
2^64, so the effective cap is at least 2^63 and only the 100-id scan
ceiling bounds the result size. -/
theorem claim9_negative_wrap (n : Int) (h1 : -(2 ^ 31) ≤ n) (h2 : n < 0) :
    i32ToUsize n = (2 ^ 64 + n).toNat ∧
    2 ^ 63 ≤ i32ToUsize n ∧
    ∀ (o : Oracle) (ids : List Nat) (q : List Char) (t : Option String)
      (r : List (Story × List Comment)),
      search o ids ⟨q, t, some n⟩ = .ok r → r.length ≤ MAX_STORIES_TO_SEARCH := by
  refine ⟨?_, ?_, ?_⟩
  · unfold i32ToUsize; omega
  · unfold i32ToUsize; omega
  · intro o ids q t r h
    have hscan := search_ok_scan o ids ⟨q, t, some n⟩ r h
    simp only [Option.getD_some] at hscan
    have hlen := scanLoop_len_le_examined o (searchTermsOf q)
      (i32ToUsize n) ids 0 0 [] r hscan
    have hex := scanLoop_examined_le o (searchTermsOf q)
      (i32ToUsize n) ids 0 0 []
    simp only [List.length_nil] at hlen
    omega

theorem claim9_witness :
    i32ToUsize (-1) = ((2 : Int) ^ 64 + (-1)).toNat ∧
    2 ^ 63 ≤ i32ToUsize (-1) :=
  ⟨(claim9_negative_wrap (-1) (by norm_num) (by norm_num)).1,
   (claim9_negative_wrap (-1) (by norm_num) (by norm_num)).2.1⟩

/-- C10: a whitespace-only query yields zero search terms; no story can
match, so for every non-empty id list (and any oracle without send-phase
transport failures) `search` fails with `NoResults`; the query is not
rejected up front — at least one candidate id is still examined. -/
theorem claim10_whitespace_query (o : Oracle) (ids : List Nat) (args : SearchArgs)
    (e : String)
    (hws : ∀ c ∈ args.query, c.isWhitespace)
    (hids : ids ≠ [])
    (hcat : storiesEndpoint args.story_type = .ok e)
    (hsend : ∀ i, o.story i ≠ .sendErr) :
    searchTermsOf args.query = [] ∧
    search o ids args = .error .NoResults ∧
    1 ≤ searchExamined o ids args := by
  have hterms := searchTermsOf_ws args.query hws
  refine ⟨hterms, ?_, ?_⟩
  · cases ids with
    | nil => exact absurd rfl hids
    | cons i rest =>
      rw [search_cons o i rest args e hcat, hterms]
      rw [scanLoop_empty_terms o (i32ToUsize (args.max_results.getD 5)) hsend
        (i :: rest) 0 0 []]
      simp
  · cases ids with
    | nil => exact absurd rfl hids
    | cons i rest =>
      unfold searchExamined
      rw [hcat]
      simp only [List.isEmpty_cons, if_false, Bool.false_eq_true]
      exact scanLoop_examined_pos o (searchTermsOf args.query)
        (i32ToUsize (args.max_results.getD 5)) i rest 0 0 [] (by decide)

theorem claim10_witness :
    searchTermsOf wsArgs.query = [] ∧
    search allJsonOracle [1] wsArgs = .error .NoResults ∧
    1 ≤ searchExamined allJsonOracle [1] wsArgs :=
  claim10_whitespace_query allJsonOracle [1] wsArgs
    (HN_API_BASE ++ "/topstories.json") (by decide) (by simp) rfl
    (fun i => by simp [allJsonOracle])

end HNModel
